import Mathlib

/-!
Shallow embedding of `packages/stream-caip10-link-handler/src/caip10-link-handler.ts`
(the Caip10Link commit applier) and proofs about its state machine.

Modelling conventions:
* JavaScript `undefined`/`null` fields become `Option`; a dereference of a
  missing field (`undefined.x`) is modelled as the error `Err.typeError`.
* JavaScript string truthiness: `undefined`, `null` and `""` are falsy.
* The external collaborators (`validateLink` from blockchain-utils-validation
  and `context.ipfs.dag.get`) are injected through a `Context` record of
  functions; their outcomes are the only free inputs of the applier.
* Timestamps are integers (`Int`); commit references (CIDs) are abstract `Nat`.
* In-place mutation (`state.log.push`, `delete state.next`, ...) is made
  explicit: each private applier returns both its result and the final value
  of the caller's `state` object, mirroring the mutation order of the source.
-/

/-- Enum `SignatureStatus` from `@ceramicnetwork/common`. -/
inductive SignatureStatus where
  | GENESIS
  | PARTIAL
  | SIGNED
deriving DecidableEq, Repr

/-- Enum `AnchorStatus` from `@ceramicnetwork/common` (the members used here). -/
inductive AnchorStatus where
  | NOT_REQUESTED
  | PENDING
  | ANCHORED
  | FAILED
deriving DecidableEq, Repr

/-- Enum `CommitType` from `@ceramicnetwork/common`. -/
inductive CommitType where
  | GENESIS
  | SIGNED
  | ANCHOR
deriving DecidableEq, Repr

/-- An anchor proof as fetched from IPFS; only `blockTimestamp` is read by the
handler (`state.anchorProof.blockTimestamp`). -/
structure AnchorProof where
  blockTimestamp : Int
deriving DecidableEq, Repr

/-- Stream metadata: `controllers` and `lastUpdate` are the fields the handler
reads; either may be absent on a raw commit header. -/
structure Metadata where
  controllers : Option (List String) := none
  lastUpdate : Option Int := none
deriving DecidableEq, Repr

/-- The `state.next` object: a signed-but-not-anchored pending update. The
genesis commit creates `next = { content: null }` with no `metadata` field. -/
structure NextState where
  content : Option String := none
  metadata : Option Metadata := none
deriving DecidableEq, Repr

/-- One entry of `state.log`. -/
structure LogEntry where
  cid : Nat
  type : CommitType
deriving DecidableEq, Repr

/-- The `StreamState` fields read or written by the Caip10Link handler. -/
structure StreamState where
  type : Nat
  content : Option String := none
  next : Option NextState := none
  metadata : Option Metadata := none
  signature : SignatureStatus
  anchorStatus : AnchorStatus
  anchorProof : Option AnchorProof := none
  log : List LogEntry
  anchorScheduledFor : Option Int := none
deriving DecidableEq, Repr

/-- The proof object returned by `validateLink`: the handler reads `account`
(or the legacy `address`), `timestamp` and `did`. -/
structure LinkProof where
  account : Option String := none
  address : Option String := none
  timestamp : Int
  did : String
deriving DecidableEq, Repr

/-- Error taxonomy of the applier. Each constructor corresponds to one `throw`
site of the source (the spec's names); `typeError` models the JavaScript
`TypeError` raised by dereferencing a missing field. -/
inductive Err where
  | invalidGenesisError
  | proofValidationError (msg : String)
  | invalidProofError
  | staleProofError
  | controllerMismatchError
  | anchorProofUnavailableError
  | typeError
deriving DecidableEq, Repr

/-- A commit as the handler shape-sniffs it: `data` is the signed link-proof
payload (opaque, handed to `validateLink`), `header` the genesis header,
`proof` the anchor-proof CID reference. -/
structure CeramicCommit where
  data : Option Nat := none
  header : Option Metadata := none
  proof : Option Nat := none
deriving DecidableEq, Repr

/-- External collaborators: `validateLink` may throw (`Except.error`) or
return no proof (`Option.none`); `ipfsGet` is `context.ipfs.dag.get` keyed by
proof reference and timeout, `none` modelling a timeout or lookup failure. -/
structure Context where
  validateLink : Option Nat → Except String (Option LinkProof)
  ipfsGet : Nat → Nat → Option AnchorProof

/-- Line 16: `const IPFS_GET_TIMEOUT = 60000 // 1 minute`. -/
def IPFS_GET_TIMEOUT : Nat := 60000

/-- Modelled from the spec: `Caip10Link.STREAM_TYPE_ID`, the "fixed identifier
constant for this record kind" (defined in the stream-caip10-link package,
outside this repository's sources). Its concrete value is irrelevant here. -/
def STREAM_TYPE_ID : Nat := 1

/-- JavaScript `a || b` on two possibly-missing strings (`""` is falsy). -/
def jsOr (a b : Option String) : Option String :=
  match a with
  | some s => if s = "" then b else some s
  | none => b

/-- JavaScript `String.prototype.split` with a one-character separator
(structural recursion over the character list). -/
def splitOnCharAux (c : Char) : List Char → List Char → List String
  | [], acc => [String.mk acc.reverse]
  | x :: xs, acc =>
      if x = c then String.mk acc.reverse :: splitOnCharAux c xs []
      else splitOnCharAux c xs (x :: acc)

/-- JS `s.split(c)` for a single-character separator; `"".split(c) = [""]`. -/
def splitOnChar (c : Char) (s : String) : List String :=
  splitOnCharAux c s.toList []

/-- JavaScript `toLowerCase` restricted to ASCII (the case the handler meets:
CAIP-10 accounts are ASCII). -/
def lowerString (s : String) : String :=
  String.mk (s.toList.map Char.toLower)

/-- Lines 114-116: `let [address, chainId] = account.split('@')` followed by
`[address, chainId].join('@')` (JS `join` renders `undefined` as `""`). -/
def toCaip10 (account : String) : String :=
  let parts := splitOnChar '@' account
  parts.headD "" ++ "@" ++ (parts.get? 1).getD ""

/-- Lines 100-110: the stale-timestamp condition of `_applySigned`, with the
source's short-circuit evaluation made explicit. `Except.error Err.typeError`
is the JS `TypeError` from `undefined.blockTimestamp` / `undefined.metadata` /
`undefined.lastUpdate`; a comparison against a missing `lastUpdate`
(`ts < undefined`) is `false` in JS, not an error. -/
def staleCheck (ts : Int) (s : StreamState) : Except Err Bool :=
  if s.signature = SignatureStatus.GENESIS then Except.ok false
  else if s.anchorStatus = AnchorStatus.ANCHORED then
    match s.anchorProof with
    | none => Except.error Err.typeError
    | some p => Except.ok (decide (ts < p.blockTimestamp))
  else
    match s.next with
    | none => Except.error Err.typeError
    | some nx =>
      match nx.metadata with
      | none => Except.error Err.typeError
      | some m =>
        match m.lastUpdate with
        | none => Except.ok false
        | some lu => Except.ok (decide (ts < lu))

/-- Method `_applyGenesis` (lines 56-79): rejects a commit with `data`, builds the
fresh state, then requires exactly one controller. A missing header makes the
controller check dereference `undefined` (`TypeError`). -/
def applyGenesis (commit : CeramicCommit) (cid : Nat) : Except Err StreamState :=
  if commit.data.isSome then Except.error Err.invalidGenesisError
  else
    match commit.header with
    | none => Except.error Err.typeError
    | some m =>
      match m.controllers with
      | none => Except.error Err.invalidGenesisError
      | some cs =>
        if cs.length = 1 then
          Except.ok
            { type := STREAM_TYPE_ID
              content := none
              next := some { content := none, metadata := none }
              metadata := some m
              signature := SignatureStatus.GENESIS
              anchorStatus := AnchorStatus.NOT_REQUESTED
              anchorProof := none
              log := [{ cid := cid, type := CommitType.GENESIS }]
              anchorScheduledFor := none }
        else Except.error Err.invalidGenesisError

/-- Method `_applySigned` (lines 88-133). The second component of the result is the
final value of the caller's `state` object: every `throw` happens before the
`state.log.push` on line 120, and the returned state spreads the pushed
state. -/
def applySigned (ctx : Context) (commit : CeramicCommit) (cid : Nat)
    (s : StreamState) : Except Err StreamState × StreamState :=
  match ctx.validateLink commit.data with
  | Except.error e => (Except.error (Err.proofValidationError e), s)
  | Except.ok none => (Except.error Err.invalidProofError, s)
  | Except.ok (some validProof) =>
    match staleCheck validProof.timestamp s with
    | Except.error e => (Except.error e, s)
    | Except.ok true => (Except.error Err.staleProofError, s)
    | Except.ok false =>
      match jsOr validProof.account validProof.address with
      | none => (Except.error Err.typeError, s)
      | some account =>
        let addressCaip10 := toCaip10 account
        match s.metadata with
        | none => (Except.error Err.typeError, s)
        | some m =>
          match m.controllers with
          | none => (Except.error Err.typeError, s)
          | some cs =>
            match cs with
            | [] => (Except.error Err.typeError, s)
            | c :: _ =>
              if lowerString addressCaip10 ≠ lowerString c then
                (Except.error Err.controllerMismatchError, s)
              else
                let s1 := { s with log := s.log ++ [({ cid := cid, type := CommitType.SIGNED } : LogEntry)] }
                (Except.ok
                  { s1 with
                    signature := SignatureStatus.SIGNED
                    anchorStatus := AnchorStatus.NOT_REQUESTED
                    next := some
                      { content := some validProof.did
                        metadata := some { m with lastUpdate := some validProof.timestamp } } },
                 s1)

/-- Method `_applyAnchor` (lines 143-162), with `proofRef` the (truthy) `commit.proof`.
The fetch precedes every mutation; on success the log push and the two
`delete`s mutate the caller's state, and the returned state spreads it. The
promotion on lines 148-151 uses JS truthiness: `state.next?.content` is falsy
when `next` is absent, its `content` is `null`, or it is the empty string. -/
def applyAnchor (ctx : Context) (proofRef : Nat) (cid : Nat)
    (s : StreamState) : Except Err StreamState × StreamState :=
  match ctx.ipfsGet proofRef IPFS_GET_TIMEOUT with
  | none => (Except.error Err.anchorProofUnavailableError, s)
  | some proof =>
    let s1 := { s with log := s.log ++ [({ cid := cid, type := CommitType.ANCHOR } : LogEntry)] }
    let content :=
      match s1.next with
      | some nx =>
        match nx.content with
        | some c => if c ≠ "" then some c else s1.content
        | none => s1.content
      | none => s1.content
    let s2 := { s1 with next := none, anchorScheduledFor := none }
    (Except.ok
      { s2 with
        content := content
        anchorStatus := AnchorStatus.ANCHORED
        anchorProof := some proof },
     s2)

/-- Method `applyCommit` (lines 38-48): dispatch on presence of prior state, then on
truthiness of `commit.proof`. The second component is the final value of the
caller's optional `state` argument. -/
def applyCommit (ctx : Context) (commit : CeramicCommit) (cid : Nat)
    (state : Option StreamState) : Except Err StreamState × Option StreamState :=
  match state with
  | none => (applyGenesis commit cid, none)
  | some s =>
    match commit.proof with
    | some ref =>
      let r := applyAnchor ctx ref cid s
      (r.1, some r.2)
    | none =>
      let r := applySigned ctx commit cid s
      (r.1, some r.2)

/-- The commit kind `applyCommit` assigns to a commit applied against an
existing state. -/
def commitKind (commit : CeramicCommit) : CommitType :=
  if commit.proof.isSome then CommitType.ANCHOR else CommitType.SIGNED

/-- Folds a list of (commit, cid) pairs over `applyCommit`, stopping at the
first error. -/
def applySeq (ctx : Context) (s : StreamState) :
    List (CeramicCommit × Nat) → Except Err StreamState
  | [] => Except.ok s
  | (c, cid) :: rest =>
    match (applyCommit ctx c cid (some s)).1 with
    | Except.error e => Except.error e
    | Except.ok s' => applySeq ctx s' rest

/-- States reachable from a genesis application by successful commit
applications (each step may use its own external context). -/
inductive Reachable : StreamState → Prop where
  | genesis : ∀ commit cid s, applyGenesis commit cid = Except.ok s → Reachable s
  | step : ∀ ctx commit cid s s', Reachable s →
      (applyCommit ctx commit cid (some s)).1 = Except.ok s' → Reachable s'

/-! ### Equation lemmas: one per branch of the appliers -/

theorem applySigned_eq_validate_error (ctx : Context) (commit : CeramicCommit)
    (cid : Nat) (s : StreamState) (e0 : String)
    (hv : ctx.validateLink commit.data = Except.error e0) :
    applySigned ctx commit cid s = (Except.error (Err.proofValidationError e0), s) := by
  simp only [applySigned, hv]

theorem applySigned_eq_validate_none (ctx : Context) (commit : CeramicCommit)
    (cid : Nat) (s : StreamState)
    (hv : ctx.validateLink commit.data = Except.ok none) :
    applySigned ctx commit cid s = (Except.error Err.invalidProofError, s) := by
  simp only [applySigned, hv]

theorem applySigned_eq_stale_error (ctx : Context) (commit : CeramicCommit)
    (cid : Nat) (s : StreamState) (p : LinkProof) (e0 : Err)
    (hv : ctx.validateLink commit.data = Except.ok (some p))
    (hst : staleCheck p.timestamp s = Except.error e0) :
    applySigned ctx commit cid s = (Except.error e0, s) := by
  simp only [applySigned, hv, hst]

theorem applySigned_eq_stale_true (ctx : Context) (commit : CeramicCommit)
    (cid : Nat) (s : StreamState) (p : LinkProof)
    (hv : ctx.validateLink commit.data = Except.ok (some p))
    (hst : staleCheck p.timestamp s = Except.ok true) :
    applySigned ctx commit cid s = (Except.error Err.staleProofError, s) := by
  simp only [applySigned, hv, hst]

theorem applySigned_eq_account_none (ctx : Context) (commit : CeramicCommit)
    (cid : Nat) (s : StreamState) (p : LinkProof)
    (hv : ctx.validateLink commit.data = Except.ok (some p))
    (hst : staleCheck p.timestamp s = Except.ok false)
    (ha : jsOr p.account p.address = none) :
    applySigned ctx commit cid s = (Except.error Err.typeError, s) := by
  simp only [applySigned, hv, hst, ha]

theorem applySigned_eq_metadata_none (ctx : Context) (commit : CeramicCommit)
    (cid : Nat) (s : StreamState) (p : LinkProof) (account : String)
    (hv : ctx.validateLink commit.data = Except.ok (some p))
    (hst : staleCheck p.timestamp s = Except.ok false)
    (ha : jsOr p.account p.address = some account)
    (hm : s.metadata = none) :
    applySigned ctx commit cid s = (Except.error Err.typeError, s) := by
  simp only [applySigned, hv, hst, ha, hm]

theorem applySigned_eq_controllers_none (ctx : Context) (commit : CeramicCommit)
    (cid : Nat) (s : StreamState) (p : LinkProof) (account : String) (m : Metadata)
    (hv : ctx.validateLink commit.data = Except.ok (some p))
    (hst : staleCheck p.timestamp s = Except.ok false)
    (ha : jsOr p.account p.address = some account)
    (hm : s.metadata = some m)
    (hcs : m.controllers = none) :
    applySigned ctx commit cid s = (Except.error Err.typeError, s) := by
  simp only [applySigned, hv, hst, ha, hm, hcs]

theorem applySigned_eq_controllers_nil (ctx : Context) (commit : CeramicCommit)
    (cid : Nat) (s : StreamState) (p : LinkProof) (account : String) (m : Metadata)
    (hv : ctx.validateLink commit.data = Except.ok (some p))
    (hst : staleCheck p.timestamp s = Except.ok false)
    (ha : jsOr p.account p.address = some account)
    (hm : s.metadata = some m)
    (hcs : m.controllers = some []) :
    applySigned ctx commit cid s = (Except.error Err.typeError, s) := by
  simp only [applySigned, hv, hst, ha, hm, hcs]

theorem applySigned_eq_mismatch (ctx : Context) (commit : CeramicCommit)
    (cid : Nat) (s : StreamState) (p : LinkProof) (account : String) (m : Metadata)
    (c : String) (rest : List String)
    (hv : ctx.validateLink commit.data = Except.ok (some p))
    (hst : staleCheck p.timestamp s = Except.ok false)
    (ha : jsOr p.account p.address = some account)
    (hm : s.metadata = some m)
    (hcs : m.controllers = some (c :: rest))
    (hne : lowerString (toCaip10 account) ≠ lowerString c) :
    applySigned ctx commit cid s = (Except.error Err.controllerMismatchError, s) := by
  simp only [applySigned, hv, hst, ha, hm, hcs]
  rw [if_pos hne]

theorem applySigned_eq_ok (ctx : Context) (commit : CeramicCommit)
    (cid : Nat) (s : StreamState) (p : LinkProof) (account : String) (m : Metadata)
    (c : String) (rest : List String)
    (hv : ctx.validateLink commit.data = Except.ok (some p))
    (hst : staleCheck p.timestamp s = Except.ok false)
    (ha : jsOr p.account p.address = some account)
    (hm : s.metadata = some m)
    (hcs : m.controllers = some (c :: rest))
    (hmatch : lowerString (toCaip10 account) = lowerString c) :
    applySigned ctx commit cid s =
      (Except.ok
        { s with
          log := s.log ++ [({ cid := cid, type := CommitType.SIGNED } : LogEntry)]
          signature := SignatureStatus.SIGNED
          anchorStatus := AnchorStatus.NOT_REQUESTED
          next := some
            { content := some p.did
              metadata := some { m with lastUpdate := some p.timestamp } } },
       { s with log := s.log ++ [({ cid := cid, type := CommitType.SIGNED } : LogEntry)] }) := by
  simp only [applySigned, hv, hst, ha, hm, hcs]
  rw [if_neg (not_not_intro hmatch)]

/-- Lines 148-151 of the source: the content promoted by an anchor commit
(`state.next?.content` when truthy, else the prior `state.content`). -/
def promotedContent (s : StreamState) : Option String :=
  match s.next with
  | some nx =>
    match nx.content with
    | some c => if c ≠ "" then some c else s.content
    | none => s.content
  | none => s.content

theorem applyAnchor_eq_fetch_none (ctx : Context) (ref cid : Nat) (s : StreamState)
    (hf : ctx.ipfsGet ref IPFS_GET_TIMEOUT = none) :
    applyAnchor ctx ref cid s = (Except.error Err.anchorProofUnavailableError, s) := by
  simp only [applyAnchor, hf]

theorem applyAnchor_eq_ok (ctx : Context) (ref cid : Nat) (s : StreamState)
    (proof : AnchorProof)
    (hf : ctx.ipfsGet ref IPFS_GET_TIMEOUT = some proof) :
    applyAnchor ctx ref cid s =
      (Except.ok
        { s with
          log := s.log ++ [({ cid := cid, type := CommitType.ANCHOR } : LogEntry)]
          next := none
          anchorScheduledFor := none
          content := promotedContent s
          anchorStatus := AnchorStatus.ANCHORED
          anchorProof := some proof },
       { s with
          log := s.log ++ [({ cid := cid, type := CommitType.ANCHOR } : LogEntry)]
          next := none
          anchorScheduledFor := none }) := by
  simp only [applyAnchor, hf, promotedContent]

theorem applyCommit_eq_genesis (ctx : Context) (commit : CeramicCommit) (cid : Nat) :
    applyCommit ctx commit cid none = (applyGenesis commit cid, none) := rfl

theorem applyCommit_eq_anchor (ctx : Context) (commit : CeramicCommit) (cid : Nat)
    (s : StreamState) (ref : Nat) (hp : commit.proof = some ref) :
    applyCommit ctx commit cid (some s) =
      ((applyAnchor ctx ref cid s).1, some (applyAnchor ctx ref cid s).2) := by
  simp only [applyCommit, hp]

theorem applyCommit_eq_signed (ctx : Context) (commit : CeramicCommit) (cid : Nat)
    (s : StreamState) (hp : commit.proof = none) :
    applyCommit ctx commit cid (some s) =
      ((applySigned ctx commit cid s).1, some (applySigned ctx commit cid s).2) := by
  simp only [applyCommit, hp]

/-- Exhaustive branch analysis of `_applySigned`: exactly one of the source's
outcomes occurs, with the conditions that select it. -/
theorem applySigned_branches (ctx : Context) (commit : CeramicCommit)
    (cid : Nat) (s : StreamState) :
    (∃ e0, ctx.validateLink commit.data = Except.error e0 ∧
       applySigned ctx commit cid s = (Except.error (Err.proofValidationError e0), s)) ∨
    (ctx.validateLink commit.data = Except.ok none ∧
       applySigned ctx commit cid s = (Except.error Err.invalidProofError, s)) ∨
    (∃ p e0, ctx.validateLink commit.data = Except.ok (some p) ∧
       staleCheck p.timestamp s = Except.error e0 ∧
       applySigned ctx commit cid s = (Except.error e0, s)) ∨
    (∃ p, ctx.validateLink commit.data = Except.ok (some p) ∧
       staleCheck p.timestamp s = Except.ok true ∧
       applySigned ctx commit cid s = (Except.error Err.staleProofError, s)) ∨
    (∃ p, ctx.validateLink commit.data = Except.ok (some p) ∧
       staleCheck p.timestamp s = Except.ok false ∧
       jsOr p.account p.address = none ∧
       applySigned ctx commit cid s = (Except.error Err.typeError, s)) ∨
    (∃ p account, ctx.validateLink commit.data = Except.ok (some p) ∧
       staleCheck p.timestamp s = Except.ok false ∧
       jsOr p.account p.address = some account ∧
       (s.metadata = none ∨
        (∃ m, s.metadata = some m ∧ m.controllers = none) ∨
        (∃ m, s.metadata = some m ∧ m.controllers = some [])) ∧
       applySigned ctx commit cid s = (Except.error Err.typeError, s)) ∨
    (∃ p account m c rest, ctx.validateLink commit.data = Except.ok (some p) ∧
       staleCheck p.timestamp s = Except.ok false ∧
       jsOr p.account p.address = some account ∧
       s.metadata = some m ∧ m.controllers = some (c :: rest) ∧
       lowerString (toCaip10 account) ≠ lowerString c ∧
       applySigned ctx commit cid s = (Except.error Err.controllerMismatchError, s)) ∨
    (∃ p account m c rest, ctx.validateLink commit.data = Except.ok (some p) ∧
       staleCheck p.timestamp s = Except.ok false ∧
       jsOr p.account p.address = some account ∧
       s.metadata = some m ∧ m.controllers = some (c :: rest) ∧
       lowerString (toCaip10 account) = lowerString c ∧
       applySigned ctx commit cid s =
         (Except.ok
           { s with
             log := s.log ++ [({ cid := cid, type := CommitType.SIGNED } : LogEntry)]
             signature := SignatureStatus.SIGNED
             anchorStatus := AnchorStatus.NOT_REQUESTED
             next := some
               { content := some p.did
                 metadata := some { m with lastUpdate := some p.timestamp } } },
          { s with log := s.log ++ [({ cid := cid, type := CommitType.SIGNED } : LogEntry)] })) := by
  cases hv : ctx.validateLink commit.data with
  | error e0 =>
    exact Or.inl ⟨e0, rfl, applySigned_eq_validate_error ctx commit cid s e0 hv⟩
  | ok po =>
    cases po with
    | none =>
      exact Or.inr (Or.inl ⟨rfl, applySigned_eq_validate_none ctx commit cid s hv⟩)
    | some p =>
      cases hst : staleCheck p.timestamp s with
      | error e0 =>
        exact Or.inr (Or.inr (Or.inl
          ⟨p, e0, rfl, hst, applySigned_eq_stale_error ctx commit cid s p e0 hv hst⟩))
      | ok b =>
        cases b with
        | true =>
          exact Or.inr (Or.inr (Or.inr (Or.inl
            ⟨p, rfl, hst, applySigned_eq_stale_true ctx commit cid s p hv hst⟩)))
        | false =>
          cases ha : jsOr p.account p.address with
          | none =>
            exact Or.inr (Or.inr (Or.inr (Or.inr (Or.inl
              ⟨p, rfl, hst, ha, applySigned_eq_account_none ctx commit cid s p hv hst ha⟩))))
          | some account =>
            cases hm : s.metadata with
            | none =>
              exact Or.inr (Or.inr (Or.inr (Or.inr (Or.inr (Or.inl
                ⟨p, account, rfl, hst, ha, Or.inl rfl,
                 applySigned_eq_metadata_none ctx commit cid s p account hv hst ha hm⟩)))))
            | some m =>
              cases hcs : m.controllers with
              | none =>
                exact Or.inr (Or.inr (Or.inr (Or.inr (Or.inr (Or.inl
                  ⟨p, account, rfl, hst, ha, Or.inr (Or.inl ⟨m, rfl, hcs⟩),
                   applySigned_eq_controllers_none ctx commit cid s p account m hv hst ha hm hcs⟩)))))
              | some cs =>
                cases cs with
                | nil =>
                  exact Or.inr (Or.inr (Or.inr (Or.inr (Or.inr (Or.inl
                    ⟨p, account, rfl, hst, ha, Or.inr (Or.inr ⟨m, rfl, hcs⟩),
                     applySigned_eq_controllers_nil ctx commit cid s p account m hv hst ha hm hcs⟩)))))
                | cons c rest =>
                  by_cases hc : lowerString (toCaip10 account) = lowerString c
                  · have hres := applySigned_eq_ok ctx commit cid s p account m c rest hv hst ha hm hcs hc
                    rw [hm] at hres
                    exact Or.inr (Or.inr (Or.inr (Or.inr (Or.inr (Or.inr (Or.inr
                      ⟨p, account, m, c, rest, rfl, hst, ha, rfl, hcs, hc, hres⟩))))))
                  · have hres := applySigned_eq_mismatch ctx commit cid s p account m c rest hv hst ha hm hcs hc
                    exact Or.inr (Or.inr (Or.inr (Or.inr (Or.inr (Or.inr (Or.inl
                      ⟨p, account, m, c, rest, rfl, hst, ha, rfl, hcs, hc, hres⟩))))))

/-- Every failing `_applySigned` leaves the caller's state value untouched. -/
theorem applySigned_snd_of_error (ctx : Context) (commit : CeramicCommit)
    (cid : Nat) (s : StreamState) (e : Err)
    (h : (applySigned ctx commit cid s).1 = Except.error e) :
    (applySigned ctx commit cid s).2 = s := by
  rcases applySigned_branches ctx commit cid s with
    ⟨e0, _, hres⟩ | ⟨_, hres⟩ | ⟨p, e0, _, _, hres⟩ | ⟨p, _, _, hres⟩ |
    ⟨p, _, _, _, hres⟩ | ⟨p, account, _, _, _, _, hres⟩ |
    ⟨p, account, m, c, rest, _, _, _, _, _, _, hres⟩ |
    ⟨p, account, m, c, rest, _, _, _, _, _, _, hres⟩
  all_goals rw [hres] at h ⊢
  all_goals simp at h ⊢

/-- A successful `_applySigned` appends exactly one SIGNED entry to the log. -/
theorem applySigned_ok_log (ctx : Context) (commit : CeramicCommit)
    (cid : Nat) (s : StreamState) (s' : StreamState)
    (h : (applySigned ctx commit cid s).1 = Except.ok s') :
    s'.log = s.log ++ [({ cid := cid, type := CommitType.SIGNED } : LogEntry)] := by
  rcases applySigned_branches ctx commit cid s with
    ⟨e0, _, hres⟩ | ⟨_, hres⟩ | ⟨p, e0, _, _, hres⟩ | ⟨p, _, _, hres⟩ |
    ⟨p, _, _, _, hres⟩ | ⟨p, account, _, _, _, _, hres⟩ |
    ⟨p, account, m, c, rest, _, _, _, _, _, _, hres⟩ |
    ⟨p, account, m, c, rest, _, _, _, _, _, _, hres⟩
  all_goals rw [hres] at h
  all_goals simp at h
  subst h
  rfl

theorem applyCommit_fst_anchor (ctx : Context) (commit : CeramicCommit) (cid : Nat)
    (s : StreamState) (ref : Nat) (hp : commit.proof = some ref) :
    (applyCommit ctx commit cid (some s)).1 = (applyAnchor ctx ref cid s).1 := by
  rw [applyCommit_eq_anchor ctx commit cid s ref hp]

theorem applyCommit_snd_anchor (ctx : Context) (commit : CeramicCommit) (cid : Nat)
    (s : StreamState) (ref : Nat) (hp : commit.proof = some ref) :
    (applyCommit ctx commit cid (some s)).2 = some (applyAnchor ctx ref cid s).2 := by
  rw [applyCommit_eq_anchor ctx commit cid s ref hp]

theorem applyCommit_fst_signed (ctx : Context) (commit : CeramicCommit) (cid : Nat)
    (s : StreamState) (hp : commit.proof = none) :
    (applyCommit ctx commit cid (some s)).1 = (applySigned ctx commit cid s).1 := by
  rw [applyCommit_eq_signed ctx commit cid s hp]

theorem applyCommit_snd_signed (ctx : Context) (commit : CeramicCommit) (cid : Nat)
    (s : StreamState) (hp : commit.proof = none) :
    (applyCommit ctx commit cid (some s)).2 = some (applySigned ctx commit cid s).2 := by
  rw [applyCommit_eq_signed ctx commit cid s hp]

/-- C2: if `applyCommit` fails with any error, the prior state passed in is
left completely unmodified — its log has the same length and entries as
before the call; no partial mutation is observable. -/
theorem caip10_failure_leaves_state_unchanged (ctx : Context)
    (commit : CeramicCommit) (cid : Nat) (state : Option StreamState) (e : Err)
    (h : (applyCommit ctx commit cid state).1 = Except.error e) :
    (applyCommit ctx commit cid state).2 = state := by
  cases state with
  | none => rfl
  | some s =>
    cases hp : commit.proof with
    | some ref =>
      rw [applyCommit_fst_anchor ctx commit cid s ref hp] at h
      rw [applyCommit_snd_anchor ctx commit cid s ref hp]
      cases hf : ctx.ipfsGet ref IPFS_GET_TIMEOUT with
      | none => rw [applyAnchor_eq_fetch_none ctx ref cid s hf]
      | some proof =>
        rw [applyAnchor_eq_ok ctx ref cid s proof hf] at h
        simp at h
    | none =>
      rw [applyCommit_fst_signed ctx commit cid s hp] at h
      rw [applyCommit_snd_signed ctx commit cid s hp]
      rw [applySigned_snd_of_error ctx commit cid s e h]

theorem caip10_failure_leaves_state_unchanged_witness :
    (applyCommit
      { validateLink := fun _ => Except.ok none, ipfsGet := fun _ _ => none }
      { data := some 0 } 7
      (some { type := 1, signature := SignatureStatus.GENESIS,
              anchorStatus := AnchorStatus.NOT_REQUESTED,
              log := [{ cid := 0, type := CommitType.GENESIS }] })).2 =
    some { type := 1, signature := SignatureStatus.GENESIS,
           anchorStatus := AnchorStatus.NOT_REQUESTED,
           log := [{ cid := 0, type := CommitType.GENESIS }] } :=
  caip10_failure_leaves_state_unchanged
    { validateLink := fun _ => Except.ok none, ipfsGet := fun _ _ => none }
    { data := some 0 } 7
    (some { type := 1, signature := SignatureStatus.GENESIS,
            anchorStatus := AnchorStatus.NOT_REQUESTED,
            log := [{ cid := 0, type := CommitType.GENESIS }] })
    Err.invalidProofError rfl

/-- C5: genesis application fails with `InvalidGenesisError` when the commit
carries a content payload or when the header's controller list is missing or
does not have exactly one entry; otherwise it returns the fresh state with
`signatureStatus = GENESIS`, `anchorStatus = NOT_REQUESTED`, null committed
content, `pendingUpdate = {content: null}`, metadata taken from the header and
a one-entry log `[{commitRef, GENESIS}]`. -/
theorem caip10_genesis_spec (commit : CeramicCommit) (cid : Nat) (m : Metadata)
    (hh : commit.header = some m) :
    (commit.data.isSome = true →
       applyGenesis commit cid = Except.error Err.invalidGenesisError) ∧
    (commit.data = none →
      ((m.controllers = none →
          applyGenesis commit cid = Except.error Err.invalidGenesisError) ∧
       (∀ cs, m.controllers = some cs → cs.length ≠ 1 →
          applyGenesis commit cid = Except.error Err.invalidGenesisError) ∧
       (∀ c, m.controllers = some [c] →
          applyGenesis commit cid = Except.ok
            { type := STREAM_TYPE_ID
              content := none
              next := some { content := none, metadata := none }
              metadata := some m
              signature := SignatureStatus.GENESIS
              anchorStatus := AnchorStatus.NOT_REQUESTED
              anchorProof := none
              log := [({ cid := cid, type := CommitType.GENESIS } : LogEntry)]
              anchorScheduledFor := none }))) := by
  constructor
  · intro hd
    simp [applyGenesis, hd]
  · intro hd
    have hds : commit.data.isSome = false := by rw [hd]; rfl
    refine ⟨?_, ?_, ?_⟩
    · intro hcs
      simp [applyGenesis, hds, hh, hcs]
    · intro cs hcs hlen
      simp only [applyGenesis, hds, Bool.false_eq_true, if_false, hh, hcs]
      rw [if_neg hlen]
    · intro c hcs
      simp [applyGenesis, hds, hh, hcs]

theorem caip10_genesis_spec_witness :
    applyGenesis { header := some { controllers := some ["0xabc@eip155:1"] } } 5 =
      Except.ok
        { type := STREAM_TYPE_ID
          content := none
          next := some { content := none, metadata := none }
          metadata := some { controllers := some ["0xabc@eip155:1"] }
          signature := SignatureStatus.GENESIS
          anchorStatus := AnchorStatus.NOT_REQUESTED
          anchorProof := none
          log := [({ cid := 5, type := CommitType.GENESIS } : LogEntry)]
          anchorScheduledFor := none } :=
  ((caip10_genesis_spec { header := some { controllers := some ["0xabc@eip155:1"] } }
      5 { controllers := some ["0xabc@eip155:1"] } rfl).2 rfl).2.2 "0xabc@eip155:1" rfl

/-- C7: the anchor proof is fetched by the commit's proof reference with the
60000 ms bound; the application fails exactly when that fetch returns nothing
(and with `AnchorProofUnavailableError`); once the fetch returns a proof the
application succeeds for every prior state, recording that proof, and the
fetch at `IPFS_GET_TIMEOUT` is the only consultation of the context. -/
theorem caip10_anchor_fetch_spec (ctx : Context) (ref cid : Nat) (s : StreamState) :
    IPFS_GET_TIMEOUT = 60000 ∧
    ((applyAnchor ctx ref cid s).1 = Except.error Err.anchorProofUnavailableError ↔
       ctx.ipfsGet ref IPFS_GET_TIMEOUT = none) ∧
    (∀ e, (applyAnchor ctx ref cid s).1 = Except.error e →
       e = Err.anchorProofUnavailableError) ∧
    (∀ P, ctx.ipfsGet ref IPFS_GET_TIMEOUT = some P →
       ∃ s', (applyAnchor ctx ref cid s).1 = Except.ok s' ∧ s'.anchorProof = some P) ∧
    (∀ ctx2 : Context, ctx2.ipfsGet ref IPFS_GET_TIMEOUT = ctx.ipfsGet ref IPFS_GET_TIMEOUT →
       applyAnchor ctx2 ref cid s = applyAnchor ctx ref cid s) := by
  refine ⟨rfl, ?_, ?_, ?_, ?_⟩
  · cases hf : ctx.ipfsGet ref IPFS_GET_TIMEOUT with
    | none => rw [applyAnchor_eq_fetch_none ctx ref cid s hf]; simp
    | some proof => rw [applyAnchor_eq_ok ctx ref cid s proof hf]; simp
  · intro e he
    cases hf : ctx.ipfsGet ref IPFS_GET_TIMEOUT with
    | none =>
      rw [applyAnchor_eq_fetch_none ctx ref cid s hf] at he
      simpa using he.symm
    | some proof =>
      rw [applyAnchor_eq_ok ctx ref cid s proof hf] at he
      simp at he
  · intro P hf
    rw [applyAnchor_eq_ok ctx ref cid s P hf]
    exact ⟨_, rfl, rfl⟩
  · intro ctx2 hsame
    unfold applyAnchor
    rw [hsame]

/-- The stale-timestamp check can only fail with a JS `TypeError`. -/
theorem staleCheck_error_eq (ts : Int) (s : StreamState) (e : Err)
    (h : staleCheck ts s = Except.error e) : e = Err.typeError := by
  unfold staleCheck at h
  repeat' split at h
  all_goals first | exact (Except.error.inj h).symm | simp at h

/-- Characterization of the stale condition (lines 100-108 of the source). -/
theorem staleCheck_ok_true_iff (ts : Int) (s : StreamState) :
    staleCheck ts s = Except.ok true ↔
      (s.signature ≠ SignatureStatus.GENESIS ∧
        ((s.anchorStatus = AnchorStatus.ANCHORED ∧
           ∃ ap, s.anchorProof = some ap ∧ ts < ap.blockTimestamp) ∨
         (s.anchorStatus ≠ AnchorStatus.ANCHORED ∧
           ∃ nx m lu, s.next = some nx ∧ nx.metadata = some m ∧
             m.lastUpdate = some lu ∧ ts < lu))) := by
  unfold staleCheck
  by_cases hg : s.signature = SignatureStatus.GENESIS
  · simp [hg]
  · rw [if_neg hg]
    by_cases hs : s.anchorStatus = AnchorStatus.ANCHORED
    · rw [if_pos hs]
      cases hap : s.anchorProof with
      | none => simp [hg, hs, hap]
      | some ap => simp [hg, hs, hap]
    · rw [if_neg hs]
      cases hn : s.next with
      | none => simp [hg, hs, hn]
      | some nx =>
        cases hm : nx.metadata with
        | none => simp [hg, hs, hn, hm]
        | some m =>
          cases hl : m.lastUpdate with
          | none => simp [hg, hs, hn, hm, hl]
          | some lu => simp [hg, hs, hn, hm, hl]

/-- On an anchored state whose anchor block timestamp does not exceed the
proof timestamp, the stale check passes. -/
theorem staleCheck_anchored_ge (ts : Int) (s : StreamState) (ap : AnchorProof)
    (hs : s.anchorStatus = AnchorStatus.ANCHORED) (hap : s.anchorProof = some ap)
    (hge : ap.blockTimestamp ≤ ts) : staleCheck ts s = Except.ok false := by
  unfold staleCheck
  by_cases hg : s.signature = SignatureStatus.GENESIS
  · rw [if_pos hg]
  · rw [if_neg hg, if_pos hs, hap]
    have hnot : ¬ ts < ap.blockTimestamp := not_lt.mpr hge
    simp [hnot]

/-- C1: given a signed commit whose proof verifies, the application fails with
`StaleProofError` exactly when the state's signatureStatus is not GENESIS and
either the state is ANCHORED with proof timestamp strictly below the stored
anchor block timestamp, or not ANCHORED with proof timestamp strictly below
the pending update's `metadata.lastUpdate` (so equality is accepted); and a
proof timestamp ≥ the anchor block timestamp succeeds given a matching
controller. -/
theorem caip10_stale_proof_boundary (ctx : Context) (commit : CeramicCommit)
    (cid : Nat) (s : StreamState) (p : LinkProof)
    (hv : ctx.validateLink commit.data = Except.ok (some p)) :
    ((applySigned ctx commit cid s).1 = Except.error Err.staleProofError ↔
      (s.signature ≠ SignatureStatus.GENESIS ∧
        ((s.anchorStatus = AnchorStatus.ANCHORED ∧
           ∃ ap, s.anchorProof = some ap ∧ p.timestamp < ap.blockTimestamp) ∨
         (s.anchorStatus ≠ AnchorStatus.ANCHORED ∧
           ∃ nx m lu, s.next = some nx ∧ nx.metadata = some m ∧
             m.lastUpdate = some lu ∧ p.timestamp < lu)))) ∧
    (∀ ap m c rest account,
       s.anchorStatus = AnchorStatus.ANCHORED → s.anchorProof = some ap →
       ap.blockTimestamp ≤ p.timestamp →
       jsOr p.account p.address = some account →
       s.metadata = some m → m.controllers = some (c :: rest) →
       lowerString (toCaip10 account) = lowerString c →
       ∃ s', (applySigned ctx commit cid s).1 = Except.ok s') := by
  constructor
  · rw [← staleCheck_ok_true_iff p.timestamp s]
    constructor
    · intro h
      rcases applySigned_branches ctx commit cid s with
        ⟨e0, hv2, hres⟩ | ⟨hv2, hres⟩ | ⟨q, e0, hv2, hst, hres⟩ | ⟨q, hv2, hst, hres⟩ |
        ⟨q, hv2, hst, ha2, hres⟩ | ⟨q, account, hv2, hst, ha2, hopt, hres⟩ |
        ⟨q, account, m, c, rest, hv2, hst, ha2, hm2, hcs2, hc2, hres⟩ |
        ⟨q, account, m, c, rest, hv2, hst, ha2, hm2, hcs2, hc2, hres⟩
      · rw [hv] at hv2; simp at hv2
      · rw [hv] at hv2; simp at hv2
      · rw [hres] at h
        simp at h
        rw [h] at hst
        have := staleCheck_error_eq q.timestamp s Err.staleProofError hst
        simp at this
      · rw [hv] at hv2
        simp at hv2
        subst hv2
        exact hst
      · rw [hres] at h; simp at h
      · rw [hres] at h; simp at h
      · rw [hres] at h; simp at h
      · rw [hres] at h; simp at h
    · intro hst
      rw [applySigned_eq_stale_true ctx commit cid s p hv hst]
  · intro ap m c rest account hs hap hge ha hm hcs hmatch
    have hst := staleCheck_anchored_ge p.timestamp s ap hs hap hge
    have hres := applySigned_eq_ok ctx commit cid s p account m c rest hv hst ha hm hcs hmatch
    exact ⟨_, by rw [hres]⟩

/-- C3: a signed commit that passes verification, the staleness check and the
controller match appends `{commitRef, SIGNED}` to the log, sets
`signatureStatus = SIGNED` and `anchorStatus = NOT_REQUESTED`, sets
`pendingUpdate = {content: proof DID, metadata: prior metadata with lastUpdate
:= proof timestamp}`, and leaves `committedContent` untouched. -/
theorem caip10_signed_success_shape (ctx : Context) (commit : CeramicCommit)
    (cid : Nat) (s : StreamState) (p : LinkProof) (account : String)
    (m : Metadata) (c : String) (rest : List String)
    (hv : ctx.validateLink commit.data = Except.ok (some p))
    (hst : staleCheck p.timestamp s = Except.ok false)
    (ha : jsOr p.account p.address = some account)
    (hm : s.metadata = some m)
    (hcs : m.controllers = some (c :: rest))
    (hmatch : lowerString (toCaip10 account) = lowerString c) :
    ∃ s', (applySigned ctx commit cid s).1 = Except.ok s' ∧
      s'.log = s.log ++ [({ cid := cid, type := CommitType.SIGNED } : LogEntry)] ∧
      s'.signature = SignatureStatus.SIGNED ∧
      s'.anchorStatus = AnchorStatus.NOT_REQUESTED ∧
      s'.next = some
        { content := some p.did
          metadata := some { m with lastUpdate := some p.timestamp } } ∧
      s'.content = s.content := by
  have hres := applySigned_eq_ok ctx commit cid s p account m c rest hv hst ha hm hcs hmatch
  refine ⟨{ s with
      log := s.log ++ [({ cid := cid, type := CommitType.SIGNED } : LogEntry)]
      signature := SignatureStatus.SIGNED
      anchorStatus := AnchorStatus.NOT_REQUESTED
      next := some
        { content := some p.did
          metadata := some { m with lastUpdate := some p.timestamp } } },
    ?_, rfl, rfl, rfl, rfl, rfl⟩
  rw [hres]

/-- C6: with a verified proof past the staleness check, the normalized account
(`account` or legacy `address`, rejoined as `address@chainId`) is compared
case-insensitively to the sole controller; the application fails with
`ControllerMismatchError` exactly when the lowercased forms differ. -/
theorem caip10_controller_match_case_insensitive (ctx : Context)
    (commit : CeramicCommit) (cid : Nat) (s : StreamState) (p : LinkProof)
    (account : String) (m : Metadata) (c : String) (rest : List String)
    (hv : ctx.validateLink commit.data = Except.ok (some p))
    (hst : staleCheck p.timestamp s = Except.ok false)
    (ha : jsOr p.account p.address = some account)
    (hm : s.metadata = some m)
    (hcs : m.controllers = some (c :: rest)) :
    ((applySigned ctx commit cid s).1 = Except.error Err.controllerMismatchError ↔
      lowerString (toCaip10 account) ≠ lowerString c) := by
  by_cases hc : lowerString (toCaip10 account) = lowerString c
  · rw [applySigned_eq_ok ctx commit cid s p account m c rest hv hst ha hm hcs hc]
    simp [hc]
  · rw [applySigned_eq_mismatch ctx commit cid s p account m c rest hv hst ha hm hcs hc]
    simp [hc]

/-! ### Concrete fixtures used by witnesses and counterexamples -/

/-- A proof object as returned by the external verifier. -/
def wProof : LinkProof :=
  { account := some "0xABC@eip155:1", address := none, timestamp := 150
    did := "did:example:1" }

/-- A context whose verifier accepts with `wProof` and whose IPFS lookup
returns an anchor proof with block timestamp 150. -/
def wCtx : Context :=
  { validateLink := fun _ => Except.ok (some wProof)
    ipfsGet := fun _ _ => some { blockTimestamp := 150 } }

def wMeta : Metadata := { controllers := some ["0xabc@eip155:1"], lastUpdate := none }

/-- A state as produced by a genesis application. -/
def wGenesis : StreamState :=
  { type := 1, content := none
    next := some { content := none, metadata := none }
    metadata := some wMeta
    signature := SignatureStatus.GENESIS
    anchorStatus := AnchorStatus.NOT_REQUESTED
    anchorProof := none
    log := [{ cid := 0, type := CommitType.GENESIS }]
    anchorScheduledFor := none }

/-- An anchored state (as left by an anchor application). -/
def wAnchored : StreamState :=
  { type := 1, content := some "did:example:0"
    next := none
    metadata := some wMeta
    signature := SignatureStatus.SIGNED
    anchorStatus := AnchorStatus.ANCHORED
    anchorProof := some { blockTimestamp := 150 }
    log := [{ cid := 0, type := CommitType.GENESIS },
            { cid := 1, type := CommitType.SIGNED },
            { cid := 2, type := CommitType.ANCHOR }]
    anchorScheduledFor := none }

theorem caip10_stale_proof_boundary_witness :
    ∃ s', (applySigned wCtx { data := some 1 } 3 wAnchored).1 = Except.ok s' :=
  (caip10_stale_proof_boundary wCtx { data := some 1 } 3 wAnchored wProof rfl).2
    { blockTimestamp := 150 } wMeta "0xabc@eip155:1" [] "0xABC@eip155:1"
    rfl rfl (by decide) rfl rfl rfl (by decide)

theorem caip10_signed_success_shape_witness :
    ∃ s', (applySigned wCtx { data := some 1 } 1 wGenesis).1 = Except.ok s' ∧
      s'.log = wGenesis.log ++ [({ cid := 1, type := CommitType.SIGNED } : LogEntry)] ∧
      s'.signature = SignatureStatus.SIGNED ∧
      s'.anchorStatus = AnchorStatus.NOT_REQUESTED ∧
      s'.next = some
        { content := some wProof.did
          metadata := some { wMeta with lastUpdate := some wProof.timestamp } } ∧
      s'.content = wGenesis.content :=
  caip10_signed_success_shape wCtx { data := some 1 } 1 wGenesis wProof
    "0xABC@eip155:1" wMeta "0xabc@eip155:1" [] rfl rfl rfl rfl rfl (by decide)

theorem caip10_controller_match_case_insensitive_witness :
    ((applySigned wCtx { data := some 1 } 1 wGenesis).1 =
        Except.error Err.controllerMismatchError ↔
      lowerString (toCaip10 "0xABC@eip155:1") ≠ lowerString "0xabc@eip155:1") :=
  caip10_controller_match_case_insensitive wCtx { data := some 1 } 1 wGenesis wProof
    "0xABC@eip155:1" wMeta "0xabc@eip155:1" [] rfl rfl rfl rfl rfl

/-- Fixture for the C4 counterexample: the pending update's content is the
empty string — present, but falsy in JavaScript. -/
def cexState : StreamState :=
  { type := 1, content := some "did:example:old"
    next := some { content := some "", metadata := none }
    metadata := some wMeta
    signature := SignatureStatus.SIGNED
    anchorStatus := AnchorStatus.NOT_REQUESTED
    anchorProof := none
    log := [{ cid := 0, type := CommitType.GENESIS },
            { cid := 1, type := CommitType.SIGNED }]
    anchorScheduledFor := none }

/-- C4 counterexample: the proof fetch succeeds and the prior pendingUpdate's
content is present (`some ""`), yet the returned `committedContent` is the
prior committed content, not the pending content — `state.next?.content` is
falsy for the empty string, so it is not promoted. -/
theorem caip10_anchor_pending_content_cex :
    wCtx.ipfsGet 2 IPFS_GET_TIMEOUT = some { blockTimestamp := 150 } ∧
    cexState.next = some { content := some "", metadata := none } ∧
    (applyAnchor wCtx 2 3 cexState).1 = Except.ok
      { type := 1, content := some "did:example:old", next := none
        metadata := some wMeta
        signature := SignatureStatus.SIGNED
        anchorStatus := AnchorStatus.ANCHORED
        anchorProof := some { blockTimestamp := 150 }
        log := [{ cid := 0, type := CommitType.GENESIS },
                { cid := 1, type := CommitType.SIGNED },
                { cid := 3, type := CommitType.ANCHOR }]
        anchorScheduledFor := none } ∧
    (some "did:example:old" : Option String) ≠ some "" :=
  ⟨rfl, rfl, rfl, by decide⟩

/-- C4 (amended): on a successful proof fetch returning P, the returned state
appends `{commitRef, ANCHOR}`, clears `pendingUpdate` and the
anchor-scheduling marker, sets `anchorStatus = ANCHORED` and `anchorProof = P`;
`committedContent` becomes the prior pendingUpdate's content when that content
is present and non-empty, and otherwise (absent, null or empty string) stays
the prior committedContent. -/
theorem caip10_anchor_success_shape (ctx : Context) (ref cid : Nat)
    (s : StreamState) (P : AnchorProof)
    (hf : ctx.ipfsGet ref IPFS_GET_TIMEOUT = some P) :
    ∃ s', (applyAnchor ctx ref cid s).1 = Except.ok s' ∧
      s'.log = s.log ++ [({ cid := cid, type := CommitType.ANCHOR } : LogEntry)] ∧
      s'.next = none ∧
      s'.anchorScheduledFor = none ∧
      s'.anchorStatus = AnchorStatus.ANCHORED ∧
      s'.anchorProof = some P ∧
      (∀ nx c, s.next = some nx → nx.content = some c → c ≠ "" →
         s'.content = some c) ∧
      ((s.next.bind NextState.content = none ∨ s.next.bind NextState.content = some "") →
         s'.content = s.content) := by
  have hres := applyAnchor_eq_ok ctx ref cid s P hf
  refine ⟨{ s with
      log := s.log ++ [({ cid := cid, type := CommitType.ANCHOR } : LogEntry)]
      next := none
      anchorScheduledFor := none
      content := promotedContent s
      anchorStatus := AnchorStatus.ANCHORED
      anchorProof := some P },
    by rw [hres], rfl, rfl, rfl, rfl, rfl, ?_, ?_⟩
  · intro nx c hn hc hne
    simp [promotedContent, hn, hc, hne]
  · intro hdisj
    cases hns : s.next with
    | none => simp [promotedContent, hns]
    | some nx =>
      cases hnc : nx.content with
      | none => simp [promotedContent, hns, hnc]
      | some cstr =>
        have hempty : cstr = "" := by
          rcases hdisj with h1 | h1
          · rw [hns] at h1
            simp [hnc] at h1
          · rw [hns] at h1
            simp [hnc] at h1
            exact h1
        subst hempty
        simp [promotedContent, hns, hnc]

theorem caip10_anchor_success_shape_witness :
    ∃ s', (applyAnchor wCtx 2 3 wGenesis).1 = Except.ok s' ∧
      s'.log = wGenesis.log ++ [({ cid := 3, type := CommitType.ANCHOR } : LogEntry)] ∧
      s'.next = none ∧
      s'.anchorScheduledFor = none ∧
      s'.anchorStatus = AnchorStatus.ANCHORED ∧
      s'.anchorProof = some { blockTimestamp := 150 } ∧
      (∀ nx c, wGenesis.next = some nx → nx.content = some c → c ≠ "" →
         s'.content = some c) ∧
      ((wGenesis.next.bind NextState.content = none ∨
        wGenesis.next.bind NextState.content = some "") →
         s'.content = wGenesis.content) :=
  caip10_anchor_success_shape wCtx 2 3 wGenesis { blockTimestamp := 150 } rfl

/-- C9: a non-genesis commit with no anchor-proof reference and no usable
signed-proof payload (the verifier throws on it or returns no proof) is
rejected with an error; no next state is produced. -/
theorem caip10_unknown_shape_rejected (ctx : Context) (commit : CeramicCommit)
    (cid : Nat) (s : StreamState)
    (hp : commit.proof = none)
    (hbad : ctx.validateLink commit.data = Except.ok none ∨
            ∃ e0, ctx.validateLink commit.data = Except.error e0) :
    ∃ e, (applyCommit ctx commit cid (some s)).1 = Except.error e := by
  rw [applyCommit_fst_signed ctx commit cid s hp]
  rcases hbad with hb | ⟨e0, hb⟩
  · exact ⟨_, by rw [applySigned_eq_validate_none ctx commit cid s hb]⟩
  · exact ⟨_, by rw [applySigned_eq_validate_error ctx commit cid s e0 hb]⟩

theorem caip10_unknown_shape_rejected_witness :
    ∃ e, (applyCommit
      { validateLink := fun _ => Except.ok none, ipfsGet := fun _ _ => none }
      { data := none, header := none, proof := none } 4
      (some wGenesis)).1 = Except.error e :=
  caip10_unknown_shape_rejected
    { validateLink := fun _ => Except.ok none, ipfsGet := fun _ _ => none }
    { data := none, header := none, proof := none } 4 wGenesis rfl (Or.inl rfl)

/-- Shape of a successful genesis application. -/
theorem applyGenesis_ok_shape (commit : CeramicCommit) (cid : Nat) (s0 : StreamState)
    (h : applyGenesis commit cid = Except.ok s0) :
    ∃ m c, commit.header = some m ∧ m.controllers = some [c] ∧
      s0 = { type := STREAM_TYPE_ID
             content := none
             next := some { content := none, metadata := none }
             metadata := some m
             signature := SignatureStatus.GENESIS
             anchorStatus := AnchorStatus.NOT_REQUESTED
             anchorProof := none
             log := [({ cid := cid, type := CommitType.GENESIS } : LogEntry)]
             anchorScheduledFor := none } := by
  unfold applyGenesis at h
  split at h
  · simp at h
  · split at h
    · simp at h
    · rename_i m hh
      split at h
      · simp at h
      · rename_i cs hcs
        split at h
        · rename_i hlen
          obtain ⟨c, hc⟩ := List.length_eq_one.mp hlen
          subst hc
          simp at h
          exact ⟨m, c, hh, hcs, h.symm⟩
        · simp at h

/-- Shape of a successful `_applySigned` result. -/
theorem applySigned_ok_shape (ctx : Context) (commit : CeramicCommit)
    (cid : Nat) (s : StreamState) (s' : StreamState)
    (h : (applySigned ctx commit cid s).1 = Except.ok s') :
    ∃ (p : LinkProof) (m : Metadata), s'.signature = SignatureStatus.SIGNED ∧
      s'.anchorStatus = AnchorStatus.NOT_REQUESTED ∧
      s'.next = some
        { content := some p.did
          metadata := some { m with lastUpdate := some p.timestamp } } := by
  rcases applySigned_branches ctx commit cid s with
    ⟨e0, _, hres⟩ | ⟨_, hres⟩ | ⟨p, e0, _, _, hres⟩ | ⟨p, _, _, hres⟩ |
    ⟨p, _, _, _, hres⟩ | ⟨p, account, _, _, _, _, hres⟩ |
    ⟨p, account, m, c, rest, _, _, _, _, _, _, hres⟩ |
    ⟨p, account, m, c, rest, _, _, _, _, _, _, hres⟩
  all_goals rw [hres] at h
  all_goals simp at h
  subst h
  exact ⟨p, m, rfl, rfl, rfl⟩

/-- A successful non-genesis `applyCommit` appends exactly one log entry of
the dispatched kind. -/
theorem applyCommit_ok_log (ctx : Context) (commit : CeramicCommit) (cid : Nat)
    (s : StreamState) (s' : StreamState)
    (h : (applyCommit ctx commit cid (some s)).1 = Except.ok s') :
    s'.log = s.log ++ [({ cid := cid, type := commitKind commit } : LogEntry)] := by
  cases hp : commit.proof with
  | some ref =>
    rw [applyCommit_fst_anchor ctx commit cid s ref hp] at h
    cases hf : ctx.ipfsGet ref IPFS_GET_TIMEOUT with
    | none =>
      rw [applyAnchor_eq_fetch_none ctx ref cid s hf] at h
      simp at h
    | some proof =>
      rw [applyAnchor_eq_ok ctx ref cid s proof hf] at h
      simp at h
      subst h
      simp [commitKind, hp]
  | none =>
    rw [applyCommit_fst_signed ctx commit cid s hp] at h
    rw [applySigned_ok_log ctx commit cid s s' h]
    simp [commitKind, hp]

theorem applySeq_cons_eq (ctx : Context) (c : CeramicCommit) (cid : Nat)
    (s : StreamState) (rest : List (CeramicCommit × Nat)) :
    applySeq ctx s ((c, cid) :: rest) =
      match (applyCommit ctx c cid (some s)).1 with
      | Except.error e => Except.error e
      | Except.ok s' => applySeq ctx s' rest := rfl

/-- A successful fold of commits appends exactly one log entry per commit. -/
theorem applySeq_ok_log (ctx : Context) (steps : List (CeramicCommit × Nat)) :
    ∀ s sf, applySeq ctx s steps = Except.ok sf →
      ∃ tail, sf.log = s.log ++ tail ∧ tail.length = steps.length := by
  induction steps with
  | nil =>
    intro s sf h
    simp only [applySeq] at h
    simp at h
    subst h
    exact ⟨[], by simp, rfl⟩
  | cons step rest ih =>
    intro s sf h
    obtain ⟨c, cid⟩ := step
    rw [applySeq_cons_eq ctx c cid s rest] at h
    cases hstep : (applyCommit ctx c cid (some s)).1 with
    | error e =>
      rw [hstep] at h
      simp at h
    | ok s1 =>
      rw [hstep] at h
      have h2 : applySeq ctx s1 rest = Except.ok sf := h
      obtain ⟨tail, htail, hlen⟩ := ih s1 sf h2
      have hlog := applyCommit_ok_log ctx c cid s s1 hstep
      refine ⟨({ cid := cid, type := commitKind c } : LogEntry) :: tail, ?_, ?_⟩
      · rw [htail, hlog]
        simp
      · simp [hlen]

/-- C8: starting from a genesis commit, every successful application appends
exactly one entry `{commitRef, kind}` at the end of the log (removing or
reordering nothing), and after a successful sequence the log length equals
one (genesis) plus the number of commits applied. -/
theorem caip10_log_append_only :
    (∀ commit cid s0, applyGenesis commit cid = Except.ok s0 →
       s0.log = [({ cid := cid, type := CommitType.GENESIS } : LogEntry)]) ∧
    (∀ ctx commit cid s s', (applyCommit ctx commit cid (some s)).1 = Except.ok s' →
       s'.log = s.log ++ [({ cid := cid, type := commitKind commit } : LogEntry)]) ∧
    (∀ ctx s steps sf, applySeq ctx s steps = Except.ok sf →
       ∃ tail, sf.log = s.log ++ tail ∧ tail.length = steps.length) ∧
    (∀ ctx commit cid steps s0 sf, applyGenesis commit cid = Except.ok s0 →
       applySeq ctx s0 steps = Except.ok sf →
       sf.log.length = 1 + steps.length) := by
  refine ⟨?_, ?_, ?_, ?_⟩
  · intro commit cid s0 h
    obtain ⟨m, c, _, _, hs0⟩ := applyGenesis_ok_shape commit cid s0 h
    rw [hs0]
  · intro ctx commit cid s s' h
    exact applyCommit_ok_log ctx commit cid s s' h
  · intro ctx s steps sf h
    exact applySeq_ok_log ctx steps s sf h
  · intro ctx commit cid steps s0 sf hg hs
    obtain ⟨m, c, _, _, hs0⟩ := applyGenesis_ok_shape commit cid s0 hg
    obtain ⟨tail, htail, hlen⟩ := applySeq_ok_log ctx steps s0 sf hs
    rw [htail, hs0]
    simp [hlen, Nat.add_comm]

theorem caip10_log_append_only_witness :
    (applyGenesis { header := some wMeta } 0 = Except.ok wGenesis) ∧
    wGenesis.log.length = 1 + ([] : List (CeramicCommit × Nat)).length :=
  ⟨rfl, caip10_log_append_only.2.2.2
    { validateLink := fun _ => Except.ok none, ipfsGet := fun _ _ => none }
    { header := some wMeta } 0 [] wGenesis wGenesis rfl rfl⟩

/-- The fields the staleness check dereferences, present as the check needs
them. -/
def StaleFieldsDefined (s : StreamState) : Prop :=
  (s.signature ≠ SignatureStatus.GENESIS ∧ s.anchorStatus = AnchorStatus.ANCHORED →
     ∃ ap, s.anchorProof = some ap) ∧
  (s.signature ≠ SignatureStatus.GENESIS ∧ s.anchorStatus ≠ AnchorStatus.ANCHORED →
     ∃ nx m lu, s.next = some nx ∧ nx.metadata = some m ∧ m.lastUpdate = some lu)

theorem staleCheck_total_of_defined (s : StreamState) (hdef : StaleFieldsDefined s) :
    ∀ ts, ∃ b, staleCheck ts s = Except.ok b := by
  intro ts
  unfold staleCheck
  by_cases hg : s.signature = SignatureStatus.GENESIS
  · exact ⟨false, by rw [if_pos hg]⟩
  · by_cases hs : s.anchorStatus = AnchorStatus.ANCHORED
    · obtain ⟨ap, hap⟩ := hdef.1 ⟨hg, hs⟩
      refine ⟨decide (ts < ap.blockTimestamp), ?_⟩
      rw [if_neg hg, if_pos hs, hap]
    · obtain ⟨nx, m, lu, hn, hm, hl⟩ := hdef.2 ⟨hg, hs⟩
      refine ⟨decide (ts < lu), ?_⟩
      rw [if_neg hg, if_neg hs, hn]
      simp [hm, hl]

/-- C10: in every state reachable from a genesis application by successful
commit applications, the fields the staleness check reads are defined
(anchorProof when not-GENESIS and ANCHORED; `next.metadata.lastUpdate` when
not-GENESIS and not ANCHORED), so the staleness comparison never dereferences
a missing field on reachable states. -/
theorem caip10_reachable_stale_fields_defined (s : StreamState) (h : Reachable s) :
    StaleFieldsDefined s ∧ ∀ ts, ∃ b, staleCheck ts s = Except.ok b := by
  have hdef : StaleFieldsDefined s := by
    induction h with
    | genesis commit cid s0 hg =>
      obtain ⟨m, c, _, _, hs0⟩ := applyGenesis_ok_shape commit cid s0 hg
      subst hs0
      constructor
      · intro hcon
        exact absurd rfl hcon.1
      · intro hcon
        exact absurd rfl hcon.1
    | step ctx commit cid s1 s' hr hok ih =>
      cases hp : commit.proof with
      | some ref =>
        rw [applyCommit_fst_anchor ctx commit cid s1 ref hp] at hok
        cases hf : ctx.ipfsGet ref IPFS_GET_TIMEOUT with
        | none =>
          rw [applyAnchor_eq_fetch_none ctx ref cid s1 hf] at hok
          simp at hok
        | some proof =>
          rw [applyAnchor_eq_ok ctx ref cid s1 proof hf] at hok
          simp at hok
          subst hok
          constructor
          · intro _
            exact ⟨proof, rfl⟩
          · intro hcon
            exact absurd rfl hcon.2
      | none =>
        rw [applyCommit_fst_signed ctx commit cid s1 hp] at hok
        obtain ⟨p, m, hsig, hanc, hnext⟩ := applySigned_ok_shape ctx commit cid s1 s' hok
        constructor
        · intro hcon
          rw [hanc] at hcon
          simp at hcon
        · intro _
          exact ⟨_, _, p.timestamp, hnext, rfl, rfl⟩
  exact ⟨hdef, staleCheck_total_of_defined s hdef⟩

theorem caip10_reachable_stale_fields_defined_witness :
    ∃ b, staleCheck 42 wGenesis = Except.ok b :=
  (caip10_reachable_stale_fields_defined wGenesis
    (Reachable.genesis { header := some wMeta } 0 wGenesis rfl)).2 42

theorem caip10_anchor_fetch_spec_witness :
    ∃ s', (applyAnchor wCtx 4 9 wGenesis).1 = Except.ok s' ∧
      s'.anchorProof = some { blockTimestamp := 150 } :=
  (caip10_anchor_fetch_spec wCtx 4 9 wGenesis).2.2.2.1 { blockTimestamp := 150 } rfl
